import Mathlib

/-!
Shallow embedding of the batched extraction-and-validation pipeline of the
MCP config extractor (src/src/utils.py, src/src/llm_validator.py,
src/src/llm_extractor.py, src/src/services/extractor_service.py,
src/src/database/repositories/configs_repository.py).

Python dicts holding an extracted configuration are opaque to the
orchestration logic modelled here except for the string-valued lookup of
the "command" key (used by `_infer_config_type`), so a configuration is
represented as an association list from keys to string values.

Python floats (LLM scores) are represented as rationals: the code only
compares them against the literal thresholds 7.0 and 5.0 and divides by
10.0, operations that are exact on the values exercised here.

Effectful steps of the source (structlog logging, writing audit prompt
files) have no bearing on the data path and are omitted.  Each model call
is a network interaction; its outcome (a response, or one of the exception
classes the source distinguishes) enters the model as an explicit
parameter of the function that performs the call.
-/

/-- A configuration dict, as an association list of string keys to
(serialized) values. -/
abbrev ConfigDict := List (String × String)

namespace Utils

/-- Characters removed by Python `str.strip()` (whitespace). -/
def isPySpace (c : Char) : Bool :=
  c = ' ' || c = '\t' || c = '\n' || c = '\x0d' || c = '\x0b' || c = '\x0c'

/-- Python `str.strip()` on a list of characters: drop whitespace from both
ends. -/
def pyStripChars (l : List Char) : List Char :=
  ((l.dropWhile isPySpace).reverse.dropWhile isPySpace).reverse

/-- Python `str.find(c)`: index of the first occurrence, `none` for `-1`. -/
def pyFind (l : List Char) (c : Char) : Option Nat :=
  match l with
  | [] => none
  | a :: rest => if a = c then some 0 else (pyFind rest c).map (· + 1)

/-- Python `str.rfind(c)`: index of the last occurrence, `none` for `-1`. -/
def pyRFind (l : List Char) (c : Char) : Option Nat :=
  match pyFind l.reverse c with
  | none => none
  | some j => some (l.length - 1 - j)

/-- The code-fence stripping of `extract_json_from_text` (src/src/utils.py
lines 53-59): drop a leading "```json", then a leading "```", then a
trailing "```". -/
def stripFences (l : List Char) : List Char :=
  let t1 := if "```json".toList.isPrefixOf l then l.drop 7 else l
  let t2 := if "```".toList.isPrefixOf t1 then t1.drop 3 else t1
  if "```".toList.isSuffixOf t2 then t2.take (t2.length - 3) else t2

/-- The cleaned character list `extract_json_from_text` searches for braces:
strip, remove fences, strip again (src/src/utils.py lines 51-61). -/
def cleanedChars (text : String) : List Char :=
  pyStripChars (stripFences (pyStripChars text.toList))

/-- Model of `extract_json_from_text` (src/src/utils.py lines 35-73): recovers the
substring between the first `\x7b` and the last `\x7d` of the cleaned text;
raising `ValueError` is modelled as `Except.error` with the exception
message. -/
def extract_json_from_text (text : String) : Except String String :=
  let t := cleanedChars text
  match pyFind t '{', pyRFind t '}' with
  | some first_brace, some last_brace =>
      Except.ok (String.mk (pyStripChars ((t.drop first_brace).take (last_brace + 1 - first_brace))))
  | _, _ => Except.error "No JSON object found in text"

end Utils

namespace LLMValidator

/-- One entry of the `evaluations` array parsed from the validator model's
JSON response.  `index` corresponds to the mandatory `e["index"]` access;
`score` and `issues` are read with `e.get("score", 0.0)` and
`e.get("issues", [])`, so they may be absent. -/
structure Evaluation where
  index : Nat
  score : Option ℚ
  issues : Option (List String)
deriving DecidableEq, Repr

/-- One element of the list returned by `validate_batch` (the per-config
result dict built at src/src/llm_validator.py lines 142-149). -/
structure ValidationVerdict where
  valid : Bool
  score : ℚ
  confidence : ℚ
  status : String
  issues : List String
  warnings : List String
deriving DecidableEq, Repr

/-- Source constant `LLMValidator.THRESHOLD_APPROVED`. -/
def THRESHOLD_APPROVED : ℚ := 7

/-- Source constant `LLMValidator.THRESHOLD_NEEDS_REVIEW`. -/
def THRESHOLD_NEEDS_REVIEW : ℚ := 5

/-- Model of `LLMValidator._categorize_by_score` (src/src/llm_validator.py lines
193-208). -/
def _categorize_by_score (score : ℚ) : String :=
  if score ≥ THRESHOLD_APPROVED then "approved"
  else if score ≥ THRESHOLD_NEEDS_REVIEW then "needs_review"
  else "rejected"

/-- The per-config result dict built in the loop at src/src/llm_validator.py
lines 124-151: the evaluation whose `index` equals the config's position is
looked up (`next((e for e in evaluations if e["index"] == i), None)`),
with a fallback when it is missing. -/
def buildVerdict (evaluations : List Evaluation) (i : Nat) : ValidationVerdict :=
  let scoreIssues : ℚ × List String :=
    match evaluations.find? (fun e => e.index == i) with
    | some e => (e.score.getD 0, e.issues.getD [])
    | none => (0, ["LLM evaluation missing"])
  let score := scoreIssues.1
  let issues := scoreIssues.2
  let status := _categorize_by_score score
  { valid := status ≠ "rejected"
    score := score
    confidence := score / 10
    status := status
    issues := issues
    warnings := if issues.isEmpty then [] else issues }

/-- The fallback verdict built when the single validation model call fails
(src/src/llm_validator.py lines 161-191); `issue` is the element placed in
the `issues` list. -/
def fallbackVerdict (issue : String) : ValidationVerdict :=
  { valid := true
    score := -1
    confidence := 1/2
    status := "needs_review"
    issues := [issue]
    warnings := ["Validation failed, needs manual review"] }

/-- Outcome of the single model call made by `validate_batch`, covering the
exception classes the source distinguishes:
`jsonDecodeError` is a `json.JSONDecodeError` raised by `json.loads`
(caught at line 161); `otherError` is any other exception — provider
failure, or the `ValueError` of `extract_json_from_text` — caught by the
generic handler at line 177; `parsed` is a successful parse, carrying
`evaluations_data.get("evaluations", [])`. -/
inductive ValidatorCallOutcome where
  | jsonDecodeError (msg : String)
  | otherError (msg : String)
  | parsed (evaluations : List Evaluation)
deriving DecidableEq, Repr

/-- Model of `LLMValidator.validate_batch` (src/src/llm_validator.py lines 48-191).
Returns the result of the call (`Except.error` models the `ValueError`
raised for oversized batches) paired with the number of model-gateway
calls the invocation performed. -/
def validate_batch (configs : List ConfigDict) (call : ValidatorCallOutcome) :
    Except String (List ValidationVerdict) × Nat :=
  if configs.length > 10 then
    (Except.error ("Batch size must be <= 10, got " ++ toString configs.length), 0)
  else
    match call with
    | .parsed evaluations =>
        (Except.ok ((List.range configs.length).map (buildVerdict evaluations)), 1)
    | .jsonDecodeError msg =>
        (Except.ok (configs.map fun _ => fallbackVerdict ("LLM returned invalid JSON: " ++ msg)), 1)
    | .otherError msg =>
        (Except.ok (configs.map fun _ => fallbackVerdict ("Validation error: " ++ msg)), 1)

end LLMValidator

namespace LLMExtractor

/-- The normalized provider response (`LLMResponse` in
src/src/llm_provider.py): content plus call metadata. -/
structure ModelResponse where
  content : String
  input_tokens : Nat
  output_tokens : Nat
  model : String
deriving DecidableEq, Repr

/-- Outcome of the provider call made by `extract_config`:
either the provider raised (any exception, caught by the generic handler at
src/src/llm_extractor.py line 89) or it returned a response. -/
inductive ExtractCallOutcome where
  | raised (msg : String)
  | ok (response : ModelResponse)
deriving DecidableEq, Repr

/-- The `_llm_metadata` dict added to a successfully parsed config
(src/src/llm_extractor.py lines 60-65). -/
structure LlmMetadata where
  input_tokens : Nat
  output_tokens : Nat
  model : String
  provider : String
deriving DecidableEq, Repr

/-- Return value of `extract_config`: either the parsed config dict
(with its `_llm_metadata` annotation), or the error-variant dict.
`raw_response` is `none` when the Python dict carries no `raw_response`
key. -/
inductive ExtractResult where
  | success (config : ConfigDict) (llm_metadata : LlmMetadata)
  | failure (error : String) (requires_manual_review : Bool) (raw_response : Option String)
deriving DecidableEq, Repr

/-- Model of `LLMExtractor.extract_config` (src/src/llm_extractor.py lines 34-96).
`loads` is the oracle for `json.loads` (external C code): `Except.error`
carries `str(e)` of the `json.JSONDecodeError` it raises; `provider_name`
is `self.provider.get_provider_name()`.  The function is total: every
failure is returned as the error variant, never raised. -/
def extract_config (loads : String → Except String ConfigDict) (provider_name : String)
    (call : ExtractCallOutcome) : ExtractResult :=
  match call with
  | .raised msg => .failure ("Extraction failed: " ++ msg) true none
  | .ok response =>
      match Utils.extract_json_from_text response.content with
      | Except.error msg =>
          -- the ValueError of the recovery step reaches the generic
          -- `except Exception` handler; `json_text` is not yet bound, so no
          -- `raw_response` snippet is attached
          .failure ("Extraction failed: " ++ msg) true none
      | Except.ok json_text =>
          match loads json_text with
          | Except.error e =>
              .failure ("Invalid JSON from LLM: " ++ e) true (some (json_text.take 500))
          | Except.ok config =>
              .success config
                { input_tokens := response.input_tokens
                  output_tokens := response.output_tokens
                  model := response.model
                  provider := provider_name }

end LLMExtractor

namespace ConfigsRepository

/-- One row of the `mcp_configs` table, as written by `insert_config`. -/
structure ConfigRow where
  server_id : String
  config_type : String
  config_json : ConfigDict
deriving DecidableEq, Repr

/-- The `config_data` argument of `insert_config` as built by
`ExtractorService.process_batch` (a dict with keys `config_type` and
`config_json`; `config_type` is read with `.get(..., 'inferred')`). -/
structure ConfigData where
  config_type : Option String
  config_json : ConfigDict
deriving DecidableEq, Repr

/-- Model of `ConfigsRepository.insert_config`
(src/src/database/repositories/configs_repository.py lines 31-80): a plain
`INSERT INTO mcp_configs` appending one row; there is no `ON CONFLICT`
clause. -/
def insert_config (rows : List ConfigRow) (server_id : String) (config_data : ConfigData) :
    List ConfigRow :=
  rows ++ [{ server_id := server_id
             config_type := config_data.config_type.getD "inferred"
             config_json := config_data.config_json }]

/-- Model of `ConfigsRepository.update_config`
(src/src/database/repositories/configs_repository.py lines 111-137): an
`UPDATE ... WHERE server_id = ...` replacing `config_json` on matching
rows.  Present in the repository but not called by `process_batch`. -/
def update_config (rows : List ConfigRow) (server_id : String) (config_json : ConfigDict) :
    List ConfigRow :=
  rows.map fun row =>
    if row.server_id = server_id then { row with config_json := config_json } else row

end ConfigsRepository

namespace ExtractorService

/-- Python `dict.get(key, default)` on a `ConfigDict`. -/
def dictGet (d : ConfigDict) (key default : String) : String :=
  ((d.find? (fun p => p.1 == key)).map (fun p => p.2)).getD default

/-- Boolean substring test on character lists (Python `needle in haystack`). -/
def containsSub (needle : List Char) : List Char → Bool
  | [] => needle.isEmpty
  | c :: rest => needle.isPrefixOf (c :: rest) || containsSub needle rest

/-- Python `needle in haystack` on strings. -/
def strContains (haystack needle : String) : Bool :=
  containsSub needle.toList haystack.toList

/-- Python `str.lower()`, applied characterwise. -/
def pyToLower (s : String) : String :=
  String.mk (s.toList.map Char.toLower)

/-- Model of `ExtractorService._infer_config_type` (src/src/services/extractor_service.py
lines 412-433): inspects the lowercased `command` value. -/
def _infer_config_type (config : ConfigDict) : String :=
  let command := pyToLower (dictGet config "command" "")
  if strContains command "npx" || strContains command "node" || strContains command "npm" then
    "npm"
  else if strContains command "python" || strContains command "uvx" then "python"
  else if strContains command "docker" then "docker"
  else if command ∈ ["go", "cargo", "dotnet", "java"] then "binary"
  else "other"

/-- The mutable `extraction` dict of a per-server result: the keys
`process_batch` writes (status, score, confidence, issues, warnings) and
the `error` key set by `process_server` on extraction failure.  `none`
models an absent key (the dict is read with `.get('status', 'pending')`
and `.get('score', 0.0)` at persistence time). -/
structure Extraction where
  error : Option String := none
  status : Option String := none
  score : Option ℚ := none
  confidence : Option ℚ := none
  issues : Option (List String) := none
  warnings : Option (List String) := none
deriving DecidableEq, Repr

/-- The per-server result dict returned by `process_server`
(src/src/services/extractor_service.py lines 98-179): `config` is `None`
when extraction failed. -/
structure ServerResult where
  server_id : String
  github_url : String
  config : Option ConfigDict
  extraction : Extraction
deriving DecidableEq, Repr

/-- One element of the `asyncio.gather(..., return_exceptions=True)` output
collected by `process_batch`: either a captured exception or a completed
`process_server` result. -/
inductive TaskOutcome where
  | raised (message : String)
  | completed (result : ServerResult)
deriving DecidableEq, Repr

/-- The state of the two tables `process_batch` writes: the `mcp_configs`
rows and, for each server id, the `mcp_servers.status` column. -/
structure Store where
  configs : List ConfigsRepository.ConfigRow
  servers : List (String × String)
deriving DecidableEq, Repr

/-- The `status_mapping` dict of `update_server_status`
(src/src/services/extractor_service.py lines 310-314). -/
def status_mapping : List (String × String) :=
  [("approved", "approved"), ("needs_review", "pending"), ("rejected", "rejected")]

/-- Lookup `status_mapping.get(validation_status, 'pending')`
(src/src/services/extractor_service.py line 316). -/
def mapValidationStatus (validation_status : String) : String :=
  ((status_mapping.find? (fun p => p.1 == validation_status)).map (fun p => p.2)).getD "pending"

/-- Model of `ExtractorService.update_server_status`
(src/src/services/extractor_service.py lines 295-327): maps the validation
status and updates the server row's `status` column. -/
def update_server_status (servers : List (String × String))
    (server_id validation_status : String) : List (String × String) :=
  servers.map fun p =>
    if p.1 = server_id then (p.1, mapValidationStatus validation_status) else p

/-- Merging one validation verdict into its result
(src/src/services/extractor_service.py lines 231-244): the extraction dict
receives the verdict's fields and the config is nullified when the verdict
is `rejected`. -/
def setVerdict (r : ServerResult) (v : LLMValidator.ValidationVerdict) : ServerResult :=
  { r with
    extraction := { r.extraction with
      status := some v.status
      score := some v.score
      confidence := some v.confidence
      issues := some v.issues
      warnings := some v.warnings }
    config := if v.status = "rejected" then none else r.config }

/-- Finalizing a result whose extraction produced no config
(src/src/services/extractor_service.py lines 246-252). -/
def rejectNoConfig (r : ServerResult) : ServerResult :=
  { r with
    extraction := { r.extraction with
      status := some "rejected"
      score := some 0
      confidence := some 0
      issues := some ["Extraction failed"]
      warnings := some [] } }

/-- The merge loop of `process_batch` (src/src/services/extractor_service.py
lines 228-252): walks the surviving results, consuming one verdict (via the
incrementing `validation_idx`) per result that has a config.  The source
indexes `validations[validation_idx]`; the leftover case below (a result
with a config but no verdict left) is unreachable when the verdicts come
from `validate_batch`, which returns exactly one verdict per config (the
Python code would raise `IndexError` there). -/
def mergeValidations : List ServerResult → List LLMValidator.ValidationVerdict →
    List ServerResult
  | [], _ => []
  | r :: rs, vs =>
      match r.config with
      | some _ =>
          match vs with
          | v :: vs' => setVerdict r v :: mergeValidations rs vs'
          | [] => r :: mergeValidations rs []
      | none => rejectNoConfig r :: mergeValidations rs vs

/-- The fallback applied when `validate_batch` raises
(src/src/services/extractor_service.py lines 254-263): every result that
has a config is marked `needs_review` with sentinel score `-1`. -/
def applyValidationFallback (msg : String) (rs : List ServerResult) : List ServerResult :=
  rs.map fun r =>
    if r.config.isSome then
      { r with
        extraction := { r.extraction with
          status := some "needs_review"
          score := some (-1)
          confidence := some (1/2)
          issues := some ["Validation failed: " ++ msg]
          warnings := some ["Needs manual review"] } }
    else r

/-- The config sub-batch passed to the validator: the configs of the
results that have one (src/src/services/extractor_service.py line 221). -/
def configsToValidate (rs : List ServerResult) : List ConfigDict :=
  rs.filterMap (fun r => r.config)

/-- The `valid_results` list of `process_batch`
(src/src/services/extractor_service.py lines 209-215): tasks that raised
are logged and dropped. -/
def survivingResults (outcomes : List TaskOutcome) : List ServerResult :=
  outcomes.filterMap fun o =>
    match o with
    | .raised _ => none
    | .completed r => some r

/-- Steps 1 and 2 of `process_batch` up to finalization
(src/src/services/extractor_service.py lines 205-263): drop tasks that
raised, then — only when at least one config was extracted — run the single
validation call and merge (or, if `validate_batch` raised, apply the
fallback).  When no configs were extracted the whole validation block is
skipped and the surviving results pass through unchanged. -/
def processBatchResults (outcomes : List TaskOutcome)
    (call : LLMValidator.ValidatorCallOutcome) : List ServerResult :=
  if survivingResults outcomes = [] then []
  else if configsToValidate (survivingResults outcomes) = [] then survivingResults outcomes
  else
    match LLMValidator.validate_batch (configsToValidate (survivingResults outcomes)) call with
    | (Except.ok validations, _) => mergeValidations (survivingResults outcomes) validations
    | (Except.error msg, _) => applyValidationFallback msg (survivingResults outcomes)

/-- Step 3 of `process_batch` for one finalized result
(src/src/services/extractor_service.py lines 266-291): insert the config
row when a config is present, then update the server status from
`extraction.get('status', 'pending')`. -/
def persistResult (store : Store) (r : ServerResult) : Store :=
  let status := r.extraction.status.getD "pending"
  let store1 :=
    match r.config with
    | some config =>
        { store with
          configs := ConfigsRepository.insert_config store.configs r.server_id
            { config_type := some (_infer_config_type config), config_json := config } }
    | none => store
  { store1 with servers := update_server_status store1.servers r.server_id status }

/-- The persistence loop of `process_batch` over all finalized results. -/
def persistBatch (store : Store) (rs : List ServerResult) : Store :=
  rs.foldl persistResult store

/-- Model of `ExtractorService.process_batch` (src/src/services/extractor_service.py
lines 181-293): finalizes the batch and persists it, returning the
finalized results and the updated store. -/
def process_batch (outcomes : List TaskOutcome)
    (call : LLMValidator.ValidatorCallOutcome) (store : Store) :
    List ServerResult × Store :=
  let finalized := processBatchResults outcomes call
  (finalized, persistBatch store finalized)

end ExtractorService

/-! ## Theorems -/

namespace LLMValidator

/-- The categorization always lands in one of the three statuses. -/
theorem categorize_mem_three (s : ℚ) :
    _categorize_by_score s = "approved" ∨ _categorize_by_score s = "needs_review" ∨
      _categorize_by_score s = "rejected" := by
  unfold _categorize_by_score
  split_ifs <;> simp

/-- For a batch within the size bound, `validate_batch` returns (it does not
raise), whatever the model call did. -/
theorem validate_batch_ok_of_le (configs : List ConfigDict) (call : ValidatorCallOutcome)
    (hle : configs.length ≤ 10) :
    ∃ vs n, validate_batch configs call = (Except.ok vs, n) := by
  unfold validate_batch
  rw [if_neg (by omega)]
  cases call <;> exact ⟨_, _, rfl⟩

/-- Whenever `validate_batch` returns, it returns exactly one verdict per
config, and every verdict's status is one of the three categories. -/
theorem validate_batch_ok_spec (configs : List ConfigDict) (call : ValidatorCallOutcome)
    (vs : List ValidationVerdict) (n : Nat)
    (h : validate_batch configs call = (Except.ok vs, n)) :
    vs.length = configs.length ∧
      ∀ v ∈ vs, v.status = "approved" ∨ v.status = "needs_review" ∨ v.status = "rejected" := by
  unfold validate_batch at h
  split at h
  · exact absurd (congrArg Prod.fst h) (by simp)
  · cases call with
    | parsed evaluations =>
        obtain ⟨rfl, -⟩ : (List.range configs.length).map (buildVerdict evaluations) = vs ∧ 1 = n :=
          by simpa using h
        refine ⟨by simp, ?_⟩
        intro v hv
        obtain ⟨i, -, rfl⟩ := List.mem_map.mp hv
        exact categorize_mem_three _
    | jsonDecodeError msg =>
        obtain ⟨rfl, -⟩ :
            configs.map (fun _ => fallbackVerdict ("LLM returned invalid JSON: " ++ msg)) = vs
              ∧ 1 = n := by simpa using h
        refine ⟨by simp, ?_⟩
        intro v hv
        obtain ⟨c, -, rfl⟩ := List.mem_map.mp hv
        simp [fallbackVerdict]
    | otherError msg =>
        obtain ⟨rfl, -⟩ :
            configs.map (fun _ => fallbackVerdict ("Validation error: " ++ msg)) = vs
              ∧ 1 = n := by simpa using h
        refine ⟨by simp, ?_⟩
        intro v hv
        obtain ⟨c, -, rfl⟩ := List.mem_map.mp hv
        simp [fallbackVerdict]

end LLMValidator

/-- C3: categorization is `approved` iff the score is at least 7,
`needs_review` iff it lies in [5, 7), `rejected` iff it is below 5; the
boundary values 7.0, 6.999, 5.0 and 4.999 land as specified; and every
verdict — in particular every successfully index-matched one — carries
confidence equal to its score divided by 10. -/
theorem score_categorization_thresholds :
    (∀ s : ℚ,
      (LLMValidator._categorize_by_score s = "approved" ↔ 7 ≤ s) ∧
      (LLMValidator._categorize_by_score s = "needs_review" ↔ 5 ≤ s ∧ s < 7) ∧
      (LLMValidator._categorize_by_score s = "rejected" ↔ s < 5)) ∧
    LLMValidator._categorize_by_score 7 = "approved" ∧
    LLMValidator._categorize_by_score (6999/1000) = "needs_review" ∧
    LLMValidator._categorize_by_score 5 = "needs_review" ∧
    LLMValidator._categorize_by_score (4999/1000) = "rejected" ∧
    ∀ evaluations i e, evaluations.find? (fun x => x.index == i) = some e →
      (LLMValidator.buildVerdict evaluations i).confidence
          = (LLMValidator.buildVerdict evaluations i).score / 10 ∧
        (LLMValidator.buildVerdict evaluations i).score = e.score.getD 0 := by
  have hmain : ∀ s : ℚ,
      (LLMValidator._categorize_by_score s = "approved" ↔ 7 ≤ s) ∧
      (LLMValidator._categorize_by_score s = "needs_review" ↔ 5 ≤ s ∧ s < 7) ∧
      (LLMValidator._categorize_by_score s = "rejected" ↔ s < 5) := by
    intro s
    unfold LLMValidator._categorize_by_score LLMValidator.THRESHOLD_APPROVED
      LLMValidator.THRESHOLD_NEEDS_REVIEW
    split_ifs with h1 h2
    · refine ⟨by simpa using h1, ?_, ?_⟩
      · constructor
        · intro h; exact absurd h (by decide)
        · rintro ⟨-, h7⟩; exact absurd h1 (not_le.mpr h7)
      · constructor
        · intro h; exact absurd h (by decide)
        · intro h5; exact absurd h1 (not_le.mpr (by linarith))
    · refine ⟨?_, ?_, ?_⟩
      · constructor
        · intro h; exact absurd h (by decide)
        · intro h7; exact absurd h7 h1
      · exact ⟨fun _ => ⟨h2, not_le.mp h1⟩, fun _ => rfl⟩
      · constructor
        · intro h; exact absurd h (by decide)
        · intro h5; exact absurd h2 (not_le.mpr h5)
    · refine ⟨?_, ?_, ?_⟩
      · constructor
        · intro h; exact absurd h (by decide)
        · intro h7; exact absurd h7 h1
      · constructor
        · intro h; exact absurd h (by decide)
        · rintro ⟨h5, -⟩; exact absurd h5 h2
      · exact ⟨fun _ => not_le.mp h2, fun _ => rfl⟩
  refine ⟨hmain, (hmain 7).1.mpr (by norm_num), (hmain _).2.1.mpr (by norm_num),
    (hmain 5).2.1.mpr (by norm_num), (hmain _).2.2.mpr (by norm_num), ?_⟩
  intro evaluations i e h
  unfold LLMValidator.buildVerdict
  rw [h]
  exact ⟨rfl, rfl⟩

/-- Witness for `score_categorization_thresholds`: the confidence clause at
a concretely matched evaluation. -/
theorem score_categorization_thresholds_witness :
    (LLMValidator.buildVerdict [⟨0, some 8, some []⟩] 0).confidence
        = (LLMValidator.buildVerdict [⟨0, some 8, some []⟩] 0).score / 10 ∧
      (LLMValidator.buildVerdict [⟨0, some 8, some []⟩] 0).score
        = (Option.some (8 : ℚ)).getD 0 :=
  score_categorization_thresholds.2.2.2.2.2 [⟨0, some 8, some []⟩] 0 ⟨0, some 8, some []⟩
    (by decide)

/-- C5: a batch of more than 10 configs makes `validate_batch` raise a
`ValueError` naming the precondition, and zero model-gateway calls are
made. -/
theorem validate_batch_oversized (configs : List ConfigDict)
    (call : LLMValidator.ValidatorCallOutcome) (h : configs.length > 10) :
    LLMValidator.validate_batch configs call
      = (Except.error ("Batch size must be <= 10, got " ++ toString configs.length), 0) := by
  unfold LLMValidator.validate_batch
  rw [if_pos h]

/-- Witness for `validate_batch_oversized`: eleven configs. -/
theorem validate_batch_oversized_witness :
    LLMValidator.validate_batch (List.replicate 11 ([] : ConfigDict)) (.parsed [])
        = (Except.error ("Batch size must be <= 10, got "
            ++ toString (List.replicate 11 ([] : ConfigDict)).length), 0) ∧
      ("Batch size must be <= 10, got "
          ++ toString (List.replicate 11 ([] : ConfigDict)).length)
        = "Batch size must be <= 10, got 11" :=
  ⟨validate_batch_oversized (List.replicate 11 ([] : ConfigDict)) (.parsed []) (by decide),
   by decide⟩

/-- C2: when the single validation model call fails — the response JSON is
unparseable (`json.JSONDecodeError`) or any other exception, including a
gateway failure, is raised — `validate_batch` returns (does not raise)
exactly one verdict per config, each `needs_review` with sentinel score
`-1`, confidence `1/2`, and an issues list carrying the failure reason. -/
theorem validator_call_failure_degrades_batch (configs : List ConfigDict) (msg : String)
    (call : LLMValidator.ValidatorCallOutcome)
    (hne : configs ≠ []) (hle : configs.length ≤ 10)
    (hfail : call = .jsonDecodeError msg ∨ call = .otherError msg) :
    ∃ vs, (LLMValidator.validate_batch configs call).1 = Except.ok vs ∧
      vs.length = configs.length ∧
      ∀ v ∈ vs, v.status = "needs_review" ∧ v.score = -1 ∧ v.confidence = 1/2 ∧
        (v.issues = ["LLM returned invalid JSON: " ++ msg]
          ∨ v.issues = ["Validation error: " ++ msg]) := by
  have hnot : ¬ configs.length > 10 := by omega
  rcases hfail with h | h <;> subst h <;>
    [refine ⟨configs.map (fun _ =>
        LLMValidator.fallbackVerdict ("LLM returned invalid JSON: " ++ msg)), ?_, by simp, ?_⟩;
     refine ⟨configs.map (fun _ =>
        LLMValidator.fallbackVerdict ("Validation error: " ++ msg)), ?_, by simp, ?_⟩] <;>
  first
  | (unfold LLMValidator.validate_batch; rw [if_neg hnot])
  | (intro v hv; obtain ⟨c, -, rfl⟩ := List.mem_map.mp hv;
     simp [LLMValidator.fallbackVerdict])

/-- Witness for `validator_call_failure_degrades_batch`: a two-config batch
whose model call raised. -/
theorem validator_call_failure_degrades_batch_witness :
    ∃ vs, (LLMValidator.validate_batch [[], []] (.otherError "boom")).1 = Except.ok vs ∧
      vs.length = ([[], []] : List ConfigDict).length ∧
      ∀ v ∈ vs, v.status = "needs_review" ∧ v.score = -1 ∧ v.confidence = 1/2 ∧
        (v.issues = ["LLM returned invalid JSON: " ++ "boom"]
          ∨ v.issues = ["Validation error: " ++ "boom"]) :=
  validator_call_failure_degrades_batch [[], []] "boom" (.otherError "boom")
    (by decide) (by decide) (Or.inr rfl)

namespace LLMValidator

/-- When evaluation indices are pairwise distinct, the index lookup is
invariant under permutation of the evaluations array. -/
theorem find_eq_of_perm_of_nodup {i : Nat} {l l' : List Evaluation} (hp : l.Perm l')
    (hnd : (l.map (fun e => e.index)).Nodup) :
    l.find? (fun e => e.index == i) = l'.find? (fun e => e.index == i) := by
  induction hp with
  | nil => rfl
  | cons x _ ih =>
      rw [List.map_cons, List.nodup_cons] at hnd
      cases hx : (x.index == i) with
      | true => simp only [List.find?_cons, hx]
      | false =>
          simp only [List.find?_cons, hx]
          exact ih hnd.2
  | swap x y l =>
      rw [List.map_cons, List.map_cons, List.nodup_cons, List.mem_cons] at hnd
      have hxy : y.index ≠ x.index := fun h => hnd.1 (Or.inl h)
      cases hy : (y.index == i) with
      | true =>
          have hx : (x.index == i) = false := by
            rw [beq_iff_eq] at hy
            rw [beq_eq_false_iff_ne]
            intro h
            exact hxy (by rw [hy, h])
          simp only [List.find?_cons, hy, hx]
      | false =>
          cases hx : (x.index == i) with
          | true => simp only [List.find?_cons, hy, hx]
          | false => simp only [List.find?_cons, hy, hx]
  | trans h1 _ ih1 ih2 =>
      exact (ih1 hnd).trans (ih2 ((h1.map (fun e => e.index)).nodup hnd))

/-- The function `buildVerdict` only depends on the evaluations through the index
lookup. -/
theorem buildVerdict_congr {i : Nat} {l l' : List Evaluation}
    (h : l.find? (fun e => e.index == i) = l'.find? (fun e => e.index == i)) :
    buildVerdict l i = buildVerdict l' i := by
  unfold buildVerdict
  rw [h]

end LLMValidator

/-- C6 (corrected): the claim's permutation-invariance fails when the model
response repeats an index — the lookup takes the *first* evaluation with
`index == i`, so two evaluations sharing index 0 with scores 9 and 1 give
`approved` in one order and `rejected` in the other. -/
theorem validator_index_matching_counterexample :
    List.Perm
        [LLMValidator.Evaluation.mk 0 (some 9) (some []),
         LLMValidator.Evaluation.mk 0 (some 1) (some [])]
        [LLMValidator.Evaluation.mk 0 (some 1) (some []),
         LLMValidator.Evaluation.mk 0 (some 9) (some [])] ∧
      (LLMValidator.validate_batch [[]]
          (.parsed [LLMValidator.Evaluation.mk 0 (some 9) (some []),
                    LLMValidator.Evaluation.mk 0 (some 1) (some [])])).1.toOption
        ≠ (LLMValidator.validate_batch [[]]
            (.parsed [LLMValidator.Evaluation.mk 0 (some 1) (some []),
                      LLMValidator.Evaluation.mk 0 (some 9) (some [])])).1.toOption :=
  ⟨List.Perm.swap _ _ _, by decide⟩

/-- C6 (amended): provided the evaluation indices are pairwise distinct,
the verdicts are invariant under any permutation of the evaluations array
(each position `i` is matched by explicit `index`, not array position);
and when no evaluation carries index `i`, the verdict at `i` defaults to
score 0 with the `LLM evaluation missing` issue and is therefore
`rejected`. -/
theorem validator_index_matching (configs : List ConfigDict)
    (evaluations evaluations' : List LLMValidator.Evaluation)
    (hnd : (evaluations.map (fun e => e.index)).Nodup)
    (hp : evaluations.Perm evaluations') :
    LLMValidator.validate_batch configs (.parsed evaluations)
        = LLMValidator.validate_batch configs (.parsed evaluations') ∧
      ∀ i, (∀ e ∈ evaluations, e.index ≠ i) →
        (LLMValidator.buildVerdict evaluations i).score = 0 ∧
        (LLMValidator.buildVerdict evaluations i).status = "rejected" ∧
        (LLMValidator.buildVerdict evaluations i).issues = ["LLM evaluation missing"] := by
  constructor
  · unfold LLMValidator.validate_batch
    split_ifs with hlen
    · rfl
    · have h : (List.range configs.length).map (LLMValidator.buildVerdict evaluations)
          = (List.range configs.length).map (LLMValidator.buildVerdict evaluations') := by
        apply List.map_congr_left
        intro i _
        exact LLMValidator.buildVerdict_congr (LLMValidator.find_eq_of_perm_of_nodup hp hnd)
      dsimp only
      rw [h]
  · intro i hi
    have hfind : evaluations.find? (fun e => e.index == i) = none := by
      rw [List.find?_eq_none]
      intro e he
      simpa using hi e he
    unfold LLMValidator.buildVerdict
    rw [hfind]
    exact ⟨rfl, by decide, rfl⟩

/-- Witness for `validator_index_matching`: a two-evaluation response with
distinct indices, permuted, and a missing index defaulting to rejection. -/
theorem validator_index_matching_witness :
    LLMValidator.validate_batch [[], []]
        (.parsed [LLMValidator.Evaluation.mk 0 (some 8) (some []),
                  LLMValidator.Evaluation.mk 1 (some 2) (some [])])
      = LLMValidator.validate_batch [[], []]
        (.parsed [LLMValidator.Evaluation.mk 1 (some 2) (some []),
                  LLMValidator.Evaluation.mk 0 (some 8) (some [])]) ∧
    (LLMValidator.buildVerdict
        [LLMValidator.Evaluation.mk 0 (some 8) (some []),
         LLMValidator.Evaluation.mk 1 (some 2) (some [])] 5).score = 0 ∧
    (LLMValidator.buildVerdict
        [LLMValidator.Evaluation.mk 0 (some 8) (some []),
         LLMValidator.Evaluation.mk 1 (some 2) (some [])] 5).status = "rejected" ∧
    (LLMValidator.buildVerdict
        [LLMValidator.Evaluation.mk 0 (some 8) (some []),
         LLMValidator.Evaluation.mk 1 (some 2) (some [])] 5).issues
      = ["LLM evaluation missing"] :=
  ⟨(validator_index_matching [[], []] _ _ (by decide) (List.Perm.swap _ _ _)).1,
   (validator_index_matching [[], []]
      [LLMValidator.Evaluation.mk 0 (some 8) (some []),
       LLMValidator.Evaluation.mk 1 (some 2) (some [])] _ (by decide)
      (List.Perm.refl _)).2 5 (by decide)⟩

/-- C10: the stored server status is a fixed function of the validation
status — `approved` is stored as `approved`, `rejected` as `rejected`, and
`needs_review` together with every unknown value as `pending`; in
particular no update ever writes the literal `needs_review`, and
`update_server_status` writes exactly the mapped value on the matching
row. -/
theorem status_mapping_fixed :
    (∀ v, ExtractorService.mapValidationStatus v
        = if v = "approved" then "approved"
          else if v = "rejected" then "rejected" else "pending") ∧
    (∀ v, ExtractorService.mapValidationStatus v ≠ "needs_review") ∧
    (∀ servers server_id v p, p ∈ ExtractorService.update_server_status servers server_id v →
      p.1 = server_id → p.2 = ExtractorService.mapValidationStatus v) := by
  have hmap : ∀ v, ExtractorService.mapValidationStatus v
      = if v = "approved" then "approved"
        else if v = "rejected" then "rejected" else "pending" := by
    intro v
    by_cases h1 : v = "approved"
    · subst h1; decide
    by_cases h2 : v = "rejected"
    · subst h2; decide
    by_cases h3 : v = "needs_review"
    · subst h3; decide
    rw [if_neg h1, if_neg h2]
    unfold ExtractorService.mapValidationStatus ExtractorService.status_mapping
    rw [List.find?_cons_of_neg _ (by simpa using fun h => h1 h.symm),
      List.find?_cons_of_neg _ (by simpa using fun h => h3 h.symm),
      List.find?_cons_of_neg _ (by simpa using fun h => h2 h.symm)]
    rfl
  refine ⟨hmap, ?_, ?_⟩
  · intro v
    rw [hmap v]
    split_ifs <;> decide
  · intro servers server_id v p hp hfst
    obtain ⟨q, -, rfl⟩ := List.mem_map.mp hp
    by_cases hq : q.1 = server_id
    · simp [hq]
    · rw [if_neg hq] at hfst ⊢
      exact absurd hfst hq

/-- Witness for `status_mapping_fixed`: a `needs_review` verdict is stored
as `pending` on the matching row. -/
theorem status_mapping_fixed_witness :
    (("s1", "pending") : String × String).2
        = ExtractorService.mapValidationStatus "needs_review" ∧
      ExtractorService.mapValidationStatus "needs_review" = "pending" :=
  ⟨status_mapping_fixed.2.2 [("s1", "old")] "s1" "needs_review" ("s1", "pending")
      (by decide) rfl,
   by decide⟩

namespace Utils

/-- Characters survive `pyStripChars`. -/
theorem mem_of_mem_pyStripChars {c : Char} {l : List Char} (h : c ∈ pyStripChars l) : c ∈ l := by
  unfold pyStripChars at h
  rw [List.mem_reverse] at h
  replace h := (List.dropWhile_sublist _).mem h
  rw [List.mem_reverse] at h
  exact (List.dropWhile_sublist _).mem h

/-- Characters survive `stripFences`. -/
theorem mem_of_mem_stripFences {c : Char} {l : List Char} (h : c ∈ stripFences l) : c ∈ l := by
  unfold stripFences at h
  dsimp only at h
  split_ifs at h <;>
    (try replace h := List.take_subset _ _ h) <;>
    (try replace h := List.drop_subset _ _ h) <;>
    (try replace h := List.drop_subset _ _ h) <;>
    exact h

/-- Characters of the cleaned text all occur in the original text. -/
theorem mem_of_mem_cleanedChars {c : Char} {text : String} (h : c ∈ cleanedChars text) :
    c ∈ text.toList :=
  mem_of_mem_pyStripChars (mem_of_mem_stripFences (mem_of_mem_pyStripChars h))

/-- The search `pyFind` returns `none` on lists not containing the character. -/
theorem pyFind_eq_none {c : Char} : ∀ {l : List Char}, c ∉ l → pyFind l c = none := by
  intro l
  induction l with
  | nil => intro _; rfl
  | cons a rest ih =>
      intro h
      rw [List.mem_cons, not_or] at h
      unfold pyFind
      rw [if_neg (fun hac => h.1 hac.symm), ih h.2]
      rfl

end Utils

/-- C7: JSON recovery extracts exactly the brace-delimited object from the
fenced example text, and deterministically fails with the `ValueError`
message when the text has no opening or no closing brace. -/
theorem extract_json_round_trip :
    Utils.extract_json_from_text "Here is the config:\n```json\n\x7b\"a\":1\x7d\n```\nThanks"
        = Except.ok "\x7b\"a\":1\x7d" ∧
      ∀ text : String, ('{' ∉ text.toList ∨ '}' ∉ text.toList) →
        Utils.extract_json_from_text text = Except.error "No JSON object found in text" := by
  constructor
  · rfl
  · intro text h
    unfold Utils.extract_json_from_text
    dsimp only
    rcases h with h | h
    · rw [Utils.pyFind_eq_none (fun hc => h (Utils.mem_of_mem_cleanedChars hc))]
    · have hrev : '}' ∉ (Utils.cleanedChars text).reverse := by
        rw [List.mem_reverse]
        exact fun hc => h (Utils.mem_of_mem_cleanedChars hc)
      have : Utils.pyRFind (Utils.cleanedChars text) '}' = none := by
        unfold Utils.pyRFind
        rw [Utils.pyFind_eq_none hrev]
      rw [this]
      cases Utils.pyFind (Utils.cleanedChars text) '{' <;> rfl

/-- Witness for `extract_json_round_trip`: a brace-free text fails. -/
theorem extract_json_round_trip_witness :
    Utils.extract_json_from_text "no json here"
      = Except.error "No JSON object found in text" :=
  extract_json_round_trip.2 "no json here" (Or.inl (by decide))

namespace ExtractorService

/-- When no configs survive extraction, every surviving result has a `none`
config. -/
theorem config_none_of_configsToValidate_nil {rs : List ServerResult}
    (h : configsToValidate rs = []) : ∀ r ∈ rs, r.config = none := by
  intro r hr
  have := List.filterMap_eq_nil_iff.mp h r hr
  simpa using this

/-- Shape of the merge loop, given one verdict per config (the invariant
`validate_batch` guarantees): it preserves length and, positionally, every
result with a config receives one verdict via `setVerdict` while every
result without a config is finalized by `rejectNoConfig`. -/
theorem mergeValidations_zip_spec :
    ∀ (rs : List ServerResult) (vs : List LLMValidator.ValidationVerdict),
      vs.length = (configsToValidate rs).length →
      (mergeValidations rs vs).length = rs.length ∧
      ∀ p ∈ rs.zip (mergeValidations rs vs),
        (p.1.config.isSome = true ∧ ∃ v ∈ vs, p.2 = setVerdict p.1 v) ∨
        (p.1.config = none ∧ p.2 = rejectNoConfig p.1) := by
  intro rs
  induction rs with
  | nil =>
      intro vs _
      exact ⟨rfl, by intro p hp; simp at hp⟩
  | cons r rs ih =>
      intro vs hlen
      cases hc : r.config with
      | none =>
          have hct : configsToValidate (r :: rs) = configsToValidate rs := by
            unfold configsToValidate
            rw [List.filterMap_cons_none hc]
          rw [hct] at hlen
          obtain ⟨ihlen, ihmem⟩ := ih vs hlen
          constructor
          · simp only [mergeValidations, hc, List.length_cons, ihlen]
          · simp only [mergeValidations, hc, List.zip_cons_cons]
            intro p hp
            rcases List.mem_cons.mp hp with rfl | hp'
            · exact Or.inr ⟨hc, rfl⟩
            · exact ihmem p hp'
      | some c =>
          have hct : configsToValidate (r :: rs) = c :: configsToValidate rs := by
            unfold configsToValidate
            rw [List.filterMap_cons_some hc]
          rw [hct] at hlen
          cases vs with
          | nil => simp at hlen
          | cons v vs' =>
              have hlen' : vs'.length = (configsToValidate rs).length := by
                simpa using hlen
              obtain ⟨ihlen, ihmem⟩ := ih vs' hlen'
              constructor
              · simp only [mergeValidations, hc, List.length_cons, ihlen]
              · simp only [mergeValidations, hc, List.zip_cons_cons]
                intro p hp
                rcases List.mem_cons.mp hp with rfl | hp'
                · exact Or.inl ⟨by simp [hc], v, List.mem_cons_self v vs', rfl⟩
                · rcases ihmem p hp' with ⟨hs, v', hv', hpv⟩ | hnone
                  · exact Or.inl ⟨hs, v', List.mem_cons_of_mem v hv', hpv⟩
                  · exact Or.inr hnone

/-- Under the hypotheses of a well-formed pass (some config was extracted,
batch within the validator bound), `process_batch` finalization is exactly
the merge of the surviving results with the verdicts `validate_batch`
returned. -/
theorem processBatchResults_eq_merge (outcomes : List TaskOutcome)
    (call : LLMValidator.ValidatorCallOutcome)
    (hne : configsToValidate (survivingResults outcomes) ≠ [])
    (hle : (configsToValidate (survivingResults outcomes)).length ≤ 10) :
    ∃ vs n,
      LLMValidator.validate_batch (configsToValidate (survivingResults outcomes)) call
          = (Except.ok vs, n) ∧
        processBatchResults outcomes call = mergeValidations (survivingResults outcomes) vs := by
  have hvr : survivingResults outcomes ≠ [] := by
    intro h
    exact hne (by rw [h]; rfl)
  obtain ⟨vs, n, hok⟩ := LLMValidator.validate_batch_ok_of_le _ call hle
  refine ⟨vs, n, hok, ?_⟩
  unfold processBatchResults
  rw [if_neg hvr, if_neg hne, hok]

end ExtractorService

/-- C8: `extract_config` never raises — every outcome is either a parsed
config or the error variant with `requires_manual_review = true`; a JSON
parse failure yields the error variant carrying the first 500 characters
of the recovered response text as `raw_response`; a provider failure or a
recovery failure yields the same error-variant shape with a generic
`Extraction failed:` message and no snippet. -/
theorem extract_config_error_shapes
    (loads : String → Except String ConfigDict) (provider_name : String)
    (call : LLMExtractor.ExtractCallOutcome) :
    ((∃ c m, LLMExtractor.extract_config loads provider_name call
        = .success c m) ∨
      (∃ msg raw, LLMExtractor.extract_config loads provider_name call
        = .failure msg true raw)) ∧
    (∀ msg, call = .raised msg →
      LLMExtractor.extract_config loads provider_name call
        = .failure ("Extraction failed: " ++ msg) true none) ∧
    (∀ response msg, call = .ok response →
      Utils.extract_json_from_text response.content = Except.error msg →
      LLMExtractor.extract_config loads provider_name call
        = .failure ("Extraction failed: " ++ msg) true none) ∧
    (∀ response json_text e, call = .ok response →
      Utils.extract_json_from_text response.content = Except.ok json_text →
      loads json_text = Except.error e →
      LLMExtractor.extract_config loads provider_name call
        = .failure ("Invalid JSON from LLM: " ++ e) true (some (json_text.take 500))) := by
  refine ⟨?_, ?_, ?_, ?_⟩
  · cases call with
    | raised msg => exact Or.inr ⟨_, _, rfl⟩
    | ok response =>
        unfold LLMExtractor.extract_config
        dsimp only
        cases hrec : Utils.extract_json_from_text response.content with
        | error msg =>
            exact Or.inr ⟨"Extraction failed: " ++ msg, none, by simp only [hrec]⟩
        | ok json_text =>
            cases hl : loads json_text with
            | error e =>
                exact Or.inr ⟨"Invalid JSON from LLM: " ++ e, some (json_text.take 500),
                  by simp only [hrec, hl]⟩
            | ok config =>
                exact Or.inl ⟨config,
                  { input_tokens := response.input_tokens,
                    output_tokens := response.output_tokens, model := response.model,
                    provider := provider_name },
                  by simp only [hrec, hl]⟩
  · rintro msg rfl
    rfl
  · rintro response msg rfl hrec
    unfold LLMExtractor.extract_config
    simp only [hrec]
  · rintro response json_text e rfl hrec hl
    unfold LLMExtractor.extract_config
    simp only [hrec, hl]

/-- Witness for `extract_config_error_shapes`: a response whose recovered
JSON fails to parse yields the error variant with the truncated snippet. -/
theorem extract_config_error_shapes_witness :
    LLMExtractor.extract_config (fun _ => Except.error "bad token") "anthropic"
        (.ok { content := "\x7bnot json\x7d", input_tokens := 1, output_tokens := 2,
               model := "m" })
      = .failure ("Invalid JSON from LLM: " ++ "bad token") true
          (some (("\x7bnot json\x7d" : String).take 500)) :=
  (extract_config_error_shapes (fun _ => Except.error "bad token") "anthropic"
      (.ok { content := "\x7bnot json\x7d", input_tokens := 1, output_tokens := 2,
             model := "m" })).2.2.2
    _ "\x7bnot json\x7d" "bad token" rfl (by rfl) rfl

/-- C1 (corrected): the claimed "persisted iff not rejected" equivalence
fails on a pass whose every extraction failed — the validation block is
skipped entirely, the item's status stays unset (stored as `pending`, not
`rejected`), and yet no config row is written for it. -/
theorem persisted_iff_not_rejected_counterexample :
    ExtractorService.processBatchResults
        [ExtractorService.TaskOutcome.completed
          { server_id := "s1", github_url := "u", config := none,
            extraction := { error := some "extraction failed" } }] (.parsed [])
      = [{ server_id := "s1", github_url := "u", config := none,
           extraction := { error := some "extraction failed" } }] ∧
    ¬ (((ExtractorService.process_batch
            [ExtractorService.TaskOutcome.completed
              { server_id := "s1", github_url := "u", config := none,
                extraction := { error := some "extraction failed" } }] (.parsed [])
            { configs := [], servers := [("s1", "fresh")] }).2.configs ≠ []) ↔
        ({ server_id := "s1", github_url := "u", config := none,
           extraction := { error := some "extraction failed" } } :
            ExtractorService.ServerResult).extraction.status ≠ some "rejected") :=
  ⟨by decide, by decide⟩

/-- C1 (amended): a `rejected` verdict always implies the finalized item's
config field is `none`, and the persistence step writes a config row for an
item exactly when its config field is non-`none` (one appended row); the
spec's converse — status not `rejected` implies a config is persisted —
does not hold for extraction-failed items in a pass that never reaches the
validator. -/
theorem rejected_verdict_clears_config (outcomes : List ExtractorService.TaskOutcome)
    (call : LLMValidator.ValidatorCallOutcome) :
    (∀ r ∈ ExtractorService.processBatchResults outcomes call,
      r.extraction.status = some "rejected" → r.config = none) ∧
    (∀ (store : ExtractorService.Store) (r : ExtractorService.ServerResult),
      (r.config = none →
        (ExtractorService.persistResult store r).configs = store.configs) ∧
      (∀ c, r.config = some c →
        (ExtractorService.persistResult store r).configs
          = store.configs ++ [{ server_id := r.server_id
                                config_type := ExtractorService._infer_config_type c
                                config_json := c }])) := by
  constructor
  · intro r hr hst
    unfold ExtractorService.processBatchResults at hr
    split_ifs at hr with h1 h2
    · simp at hr
    · exact ExtractorService.config_none_of_configsToValidate_nil h2 r hr
    · split at hr
      case _ validations n heq =>
        have hlen := (LLMValidator.validate_batch_ok_spec _ _ _ _ heq).1
        obtain ⟨hmlen, hmem⟩ :=
          ExtractorService.mergeValidations_zip_spec
            (ExtractorService.survivingResults outcomes) validations (by rw [hlen])
        have hsnd := List.map_snd_zip (ExtractorService.survivingResults outcomes)
          (ExtractorService.mergeValidations
            (ExtractorService.survivingResults outcomes) validations) (le_of_eq hmlen)
        rw [← hsnd] at hr
        obtain ⟨p, hp, rfl⟩ := List.mem_map.mp hr
        rcases hmem p hp with ⟨hs, v, -, hpv⟩ | ⟨hcn, hpr⟩
        · rw [hpv] at hst ⊢
          have hrj : v.status = "rejected" := by
            simpa [ExtractorService.setVerdict] using hst
          simp [ExtractorService.setVerdict, hrj]
        · rw [hpr]
          simp [ExtractorService.rejectNoConfig, hcn]
      case _ msg n heq =>
        obtain ⟨q, hq, rfl⟩ := List.mem_map.mp hr
        by_cases hqc : q.config.isSome
        · rw [if_pos hqc] at hst
          simp at hst
        · rw [if_neg hqc] at hst ⊢
          cases hqq : q.config with
          | none => rfl
          | some c => exact absurd (by rw [hqq]; rfl) hqc
  · intro store r
    constructor
    · intro hc
      simp [ExtractorService.persistResult, hc, ExtractorService.update_server_status]
    · intro c hc
      simp [ExtractorService.persistResult, hc, ExtractorService.update_server_status,
        ConfigsRepository.insert_config]

unseal Rat.mul Rat.inv in
/-- Witness for `rejected_verdict_clears_config`: a config item whose
evaluation is missing is rejected and its config cleared; persisting a
config-less item writes no config row. -/
theorem rejected_verdict_clears_config_witness :
    ({ server_id := "s1"
       github_url := "u"
       config := none
       extraction := { error := none
                       status := some "rejected"
                       score := some 0
                       confidence := some 0
                       issues := some ["LLM evaluation missing"]
                       warnings := some ["LLM evaluation missing"] } } :
        ExtractorService.ServerResult).config = none ∧
    (ExtractorService.persistResult { configs := [], servers := [] }
        { server_id := "s1", github_url := "u", config := none, extraction := {} }).configs
      = ({ configs := [], servers := [] } : ExtractorService.Store).configs :=
  ⟨(rejected_verdict_clears_config
      [ExtractorService.TaskOutcome.completed
        { server_id := "s1"
          github_url := "u"
          config := some [("command", "npx")]
          extraction := {} }] (.parsed [])).1
      { server_id := "s1"
        github_url := "u"
        config := none
        extraction := { error := none
                        status := some "rejected"
                        score := some 0
                        confidence := some 0
                        issues := some ["LLM evaluation missing"]
                        warnings := some ["LLM evaluation missing"] } }
      (by decide) (by decide),
   ((rejected_verdict_clears_config [] (.parsed [])).2 { configs := [], servers := [] }
      { server_id := "s1", github_url := "u", config := none, extraction := {} }).1 rfl⟩

/-- C4 (corrected): in a pass whose every extraction failed, the claimed
finalization does not happen — the surviving no-config item is not
finalized `rejected` (its status key is never written) and the status
stored for it is `pending`, outside the three claimed terminal statuses. -/
theorem finalization_partition_counterexample :
    ¬ (∀ r ∈ ExtractorService.processBatchResults
          [ExtractorService.TaskOutcome.completed
            { server_id := "s1", github_url := "u", config := none,
              extraction := { error := some "boom" } }] (.parsed []),
        r.extraction.status = some "rejected") ∧
    (ExtractorService.process_batch
        [ExtractorService.TaskOutcome.completed
          { server_id := "s1", github_url := "u", config := none,
            extraction := { error := some "boom" } }] (.parsed [])
        { configs := [], servers := [("s1", "fresh")] }).2.servers
      = [("s1", "pending")] ∧
    "pending" ∉ (["approved", "needs_review", "rejected"] : List String) :=
  ⟨by decide, by decide, by decide⟩

/-- C4 (amended): in every pass in which at least one config was extracted
and the batch is within the validator bound, finalization preserves the
surviving results positionally; every surviving item whose extraction
produced no config is finalized `rejected`; an item's finalized config is
`none` exactly when its finalized status is `rejected`; every finalized
status is one of `approved`, `needs_review`, `rejected`; and no-config
items contribute nothing to the config list handed to the validator
(unconditionally). -/
theorem finalization_partition (outcomes : List ExtractorService.TaskOutcome)
    (call : LLMValidator.ValidatorCallOutcome)
    (hne : ExtractorService.configsToValidate (ExtractorService.survivingResults outcomes) ≠ [])
    (hle : (ExtractorService.configsToValidate
        (ExtractorService.survivingResults outcomes)).length ≤ 10) :
    (ExtractorService.processBatchResults outcomes call).length
      = (ExtractorService.survivingResults outcomes).length ∧
    (∀ p ∈ (ExtractorService.survivingResults outcomes).zip
        (ExtractorService.processBatchResults outcomes call),
      (p.1.config = none → p.2.extraction.status = some "rejected") ∧
      (p.2.config = none ↔ p.2.extraction.status = some "rejected") ∧
      (p.2.extraction.status = some "approved" ∨ p.2.extraction.status = some "needs_review"
        ∨ p.2.extraction.status = some "rejected")) ∧
    (∀ (r : ExtractorService.ServerResult) (rs : List ExtractorService.ServerResult),
      r.config = none →
      ExtractorService.configsToValidate (r :: rs) = ExtractorService.configsToValidate rs) := by
  obtain ⟨vs, n, hok, heq⟩ :=
    ExtractorService.processBatchResults_eq_merge outcomes call hne hle
  obtain ⟨hlen3, hsts⟩ := LLMValidator.validate_batch_ok_spec _ _ _ _ hok
  obtain ⟨hmlen, hmem⟩ := ExtractorService.mergeValidations_zip_spec
    (ExtractorService.survivingResults outcomes) vs (by rw [hlen3])
  refine ⟨by rw [heq, hmlen], ?_, ?_⟩
  · intro p hp
    rw [heq] at hp
    rcases hmem p hp with ⟨hs, v, hv, hpv⟩ | ⟨hcn, hpr⟩
    · obtain ⟨c0, hc0⟩ := Option.isSome_iff_exists.mp hs
      refine ⟨?_, ?_, ?_⟩
      · intro hc1
        rw [hc1] at hc0
        exact absurd hc0 (by simp)
      · rw [hpv]
        by_cases hrj : v.status = "rejected"
        · simp [ExtractorService.setVerdict, hrj]
        · simp [ExtractorService.setVerdict, hrj, hc0]
      · rcases hsts v hv with h | h | h <;> rw [hpv] <;> simp [ExtractorService.setVerdict, h]
    · refine ⟨fun _ => by rw [hpr]; rfl, ?_, ?_⟩
      · rw [hpr]
        simp [ExtractorService.rejectNoConfig, hcn]
      · rw [hpr]
        right; right; rfl
  · intro r rs hc
    unfold ExtractorService.configsToValidate
    rw [List.filterMap_cons_none hc]

unseal Rat.mul Rat.inv in
/-- Witness for `finalization_partition`: a two-item batch (one config
extracted and approved, one extraction failure) — lengths agree and the
no-config item is finalized `rejected`. -/
theorem finalization_partition_witness :
    (ExtractorService.processBatchResults
        [ExtractorService.TaskOutcome.completed
          { server_id := "s1", github_url := "u1", config := some [("command", "npx")],
            extraction := {} },
         ExtractorService.TaskOutcome.completed
          { server_id := "s2", github_url := "u2", config := none,
            extraction := { error := some "boom" } }]
        (.parsed [LLMValidator.Evaluation.mk 0 (some 8) (some [])])).length
      = (ExtractorService.survivingResults
          [ExtractorService.TaskOutcome.completed
            { server_id := "s1", github_url := "u1", config := some [("command", "npx")],
              extraction := {} },
           ExtractorService.TaskOutcome.completed
            { server_id := "s2", github_url := "u2", config := none,
              extraction := { error := some "boom" } }]).length ∧
    ({ server_id := "s2"
       github_url := "u2"
       config := none
       extraction := { error := some "boom"
                       status := some "rejected"
                       score := some 0
                       confidence := some 0
                       issues := some ["Extraction failed"]
                       warnings := some [] } } :
        ExtractorService.ServerResult).extraction.status = some "rejected" :=
  ⟨(finalization_partition
      [ExtractorService.TaskOutcome.completed
        { server_id := "s1", github_url := "u1", config := some [("command", "npx")],
          extraction := {} },
       ExtractorService.TaskOutcome.completed
        { server_id := "s2", github_url := "u2", config := none,
          extraction := { error := some "boom" } }]
      (.parsed [LLMValidator.Evaluation.mk 0 (some 8) (some [])])
      (by decide) (by decide)).1,
   ((finalization_partition
      [ExtractorService.TaskOutcome.completed
        { server_id := "s1", github_url := "u1", config := some [("command", "npx")],
          extraction := {} },
       ExtractorService.TaskOutcome.completed
        { server_id := "s2", github_url := "u2", config := none,
          extraction := { error := some "boom" } }]
      (.parsed [LLMValidator.Evaluation.mk 0 (some 8) (some [])])
      (by decide) (by decide)).2.1
      ({ server_id := "s2", github_url := "u2", config := none,
         extraction := { error := some "boom" } },
       { server_id := "s2"
         github_url := "u2"
         config := none
         extraction := { error := some "boom"
                         status := some "rejected"
                         score := some 0
                         confidence := some 0
                         issues := some ["Extraction failed"]
                         warnings := some [] } })
      (by decide)).1 rfl⟩

/-- C9 (corrected): persisting the same finalized `approved` result twice
does not leave the same stored config as persisting it once — the second
pass appends a second `mcp_configs` row (plain `INSERT`, no upsert). -/
theorem insert_config_upsert_counterexample :
    ¬ (ExtractorService.persistResult
          (ExtractorService.persistResult { configs := [], servers := [("s1", "pending")] }
            { server_id := "s1", github_url := "u", config := some [("command", "npx")],
              extraction := { status := some "approved", score := some 8 } })
          { server_id := "s1", github_url := "u", config := some [("command", "npx")],
            extraction := { status := some "approved", score := some 8 } }
        = ExtractorService.persistResult { configs := [], servers := [("s1", "pending")] }
            { server_id := "s1", github_url := "u", config := some [("command", "npx")],
              extraction := { status := some "approved", score := some 8 } }) := by
  decide

/-- C9 (amended): the config write is insert-only — `insert_config` appends
one row unconditionally, so persisting the same finalized `approved`
result twice leaves two config rows for the repository id where persisting
once leaves one; there are no upsert semantics. -/
theorem insert_config_insert_only (rows : List ConfigsRepository.ConfigRow)
    (server_id : String) (config_data : ConfigsRepository.ConfigData) :
    ConfigsRepository.insert_config rows server_id config_data
        = rows ++ [{ server_id := server_id
                     config_type := config_data.config_type.getD "inferred"
                     config_json := config_data.config_json }] ∧
    (ConfigsRepository.insert_config
        (ConfigsRepository.insert_config rows server_id config_data)
        server_id config_data).length = rows.length + 2 ∧
    ∀ (store : ExtractorService.Store) (r : ExtractorService.ServerResult) (c : ConfigDict),
      r.config = some c →
      ((ExtractorService.persistResult (ExtractorService.persistResult store r) r).configs).length
        = store.configs.length + 2 := by
  refine ⟨rfl, by simp [ConfigsRepository.insert_config], ?_⟩
  intro store r c hc
  simp [ExtractorService.persistResult, hc, ConfigsRepository.insert_config,
    ExtractorService.update_server_status]

/-- Witness for `insert_config_insert_only`: double persistence of an
approved result grows the config table by two rows. -/
theorem insert_config_insert_only_witness :
    ((ExtractorService.persistResult
        (ExtractorService.persistResult { configs := [], servers := [] }
          { server_id := "s1", github_url := "u", config := some [("command", "npx")],
            extraction := { status := some "approved" } })
        { server_id := "s1", github_url := "u", config := some [("command", "npx")],
          extraction := { status := some "approved" } }).configs).length
      = ({ configs := [], servers := [] } : ExtractorService.Store).configs.length + 2 :=
  (insert_config_insert_only [] "s1" { config_type := none, config_json := [] }).2.2
    { configs := [], servers := [] }
    { server_id := "s1", github_url := "u", config := some [("command", "npx")],
      extraction := { status := some "approved" } }
    [("command", "npx")] rfl
